import Mathlib

/-!
Verification development for the `hurley` load-generation engine
(`src/perf/runner.rs`, `src/perf/metrics.rs`, `src/perf/dataset.rs`,
`src/http/request.rs`, `src/http/response.rs`, `src/error.rs`).

The Rust code is shallowly embedded: pure functions become Lean functions,
fallible code returns `Except`, time instants and durations are natural
numbers of nanoseconds, and `f64` arithmetic in the snapshot computation is
modelled over `ℚ`. The external `hdrhistogram` collaborator is modelled from
the spec's contract for it (exact order statistics, as §9 of the spec allows).
-/

namespace Hurley

/-! ## Error type (`src/error.rs`, `RurlError`) -/

/-- Embedding of `RurlError` (`src/error.rs`). Payloads are kept as strings;
variants carrying foreign error types keep only their message. -/
inductive RurlError where
  | RequestError (msg : String)
  | InvalidUrl (msg : String)
  | InvalidMethod (method : String)
  | InvalidHeader (header : String)
  | FileError (msg : String)
  | JsonError (msg : String)
  | DatasetError (msg : String)
  | PerfError (msg : String)
  deriving Repr, DecidableEq

/-! ## Histogram (external `hdrhistogram` collaborator)

Modelled from the spec: the spec's §3 "Histogram" data model — a bounded
structure over latency in microseconds with a fixed upper bound supporting
`record(value)` and `value_at_percentile(p)` — implemented here with exact
order statistics, the substitution §9 of the spec explicitly allows in place
of log-linear bucketing. `record` fails exactly when the value exceeds the
configured upper bound (the crate's behaviour without auto-resize); on an
empty histogram `min`, `max`, `mean` and every percentile are `0`. -/

/-- Modelled from the spec: the histogram of the external `hdrhistogram`
collaborator. `low`/`high`/`sigfig` are the construction bounds of
`Histogram::new_with_bounds`; `values` is the multiset of recorded samples
(exact, rather than log-linear-bucketed — the substitution spec §9 allows). -/
structure Histogram where
  low : Nat
  high : Nat
  sigfig : Nat
  values : List Nat
  deriving Repr, DecidableEq

namespace Histogram

/-- Modelled from the spec: `Histogram::new_with_bounds(low, high, sigfig)`. -/
def new_with_bounds (low high sigfig : Nat) : Histogram :=
  { low := low, high := high, sigfig := sigfig, values := [] }

/-- Modelled from the spec: `Histogram::record(value)` fails iff the value
exceeds the configured maximum (no auto-resize). -/
def record (h : Histogram) (v : Nat) : Except Unit Histogram :=
  if v ≤ h.high then .ok { h with values := v :: h.values } else .error ()

/-- The recorded samples in ascending order. -/
def sortedValues (h : Histogram) : List Nat :=
  List.insertionSort (· ≤ ·) h.values

/-- Modelled from the spec: `Histogram::min` — the lowest recorded value,
`0` when nothing is recorded. -/
def min (h : Histogram) : Nat :=
  h.sortedValues.headD 0

/-- Modelled from the spec: `Histogram::max` — the highest recorded value,
`0` when nothing is recorded. -/
def max (h : Histogram) : Nat :=
  h.sortedValues.getLastD 0

/-- Modelled from the spec: `Histogram::mean`, floored to an integer (the
Rust code casts the `f64` mean to `u64` before unit conversion). -/
def mean (h : Histogram) : Nat :=
  if h.values.isEmpty then 0 else h.values.sum / h.values.length

/-- Modelled from the spec: `Histogram::value_at_percentile(p)` — the latency
value below-or-at which `p` percent of recorded samples fall: the order
statistic at rank `⌈p·n/100⌉` (at least 1) of the sorted samples, `0` when
nothing is recorded. -/
def value_at_percentile (h : Histogram) (p : Nat) : Nat :=
  if h.values.isEmpty then 0
  else
    let s := h.sortedValues
    let rank := Max.max 1 ((p * s.length + 99) / 100)
    s.getD (rank - 1) 0

end Histogram

/-! ## Metrics (`src/perf/metrics.rs`) -/

/-- Embedding of `PerfMetrics` (`src/perf/metrics.rs`). The Rust `f64`
fields are modelled over `ℚ`. -/
structure PerfMetrics where
  total_requests : Nat
  successful_requests : Nat
  failed_requests : Nat
  total_duration_ms : ℚ
  latency_min_ms : ℚ
  latency_max_ms : ℚ
  latency_avg_ms : ℚ
  latency_p50_ms : ℚ
  latency_p95_ms : ℚ
  latency_p99_ms : ℚ
  requests_per_second : ℚ
  error_rate_percent : ℚ
  deriving Repr, DecidableEq

/-- Embedding of `MetricsCollector` (`src/perf/metrics.rs`). `Instant`s are
natural numbers of nanoseconds since an arbitrary origin. -/
structure MetricsCollector where
  histogram : Histogram
  successful : Nat
  failed : Nat
  start_time : Option Nat
  end_time : Option Nat
  deriving Repr, DecidableEq

namespace MetricsCollector

/-- `MetricsCollector::new`: a histogram tracking 1 µs – 60 s at 3
significant figures, zero counters, no timestamps. -/
def new : MetricsCollector :=
  { histogram := Histogram.new_with_bounds 1 60000000 3
    successful := 0
    failed := 0
    start_time := none
    end_time := none }

/-- `MetricsCollector::start` — the current instant is passed explicitly. -/
def start (c : MetricsCollector) (now : Nat) : MetricsCollector :=
  { c with start_time := some now }

/-- `MetricsCollector::finish` — the current instant is passed explicitly. -/
def finish (c : MetricsCollector) (now : Nat) : MetricsCollector :=
  { c with end_time := some now }

/-- `MetricsCollector::record_success(duration)`: convert the duration
(nanoseconds) to whole microseconds (`as_micros`, exact in `u128`), cast to
`u64` — a wrapping cast, `% 2^64` — then clamp to the histogram maximum,
record (the `Result` of `record` is discarded with `let _ =`), and
increment the success counter. -/
def record_success (c : MetricsCollector) (duration : Nat) : MetricsCollector :=
  let micros := duration / 1000 % 18446744073709551616
  let micros := Min.min micros c.histogram.high
  let histogram :=
    match c.histogram.record micros with
    | .ok h => h
    | .error _ => c.histogram
  { c with histogram := histogram, successful := c.successful + 1 }

/-- `MetricsCollector::record_failure(duration)`: same as `record_success`
(including the wrapping `as u64` cast) but incrementing the failure
counter. -/
def record_failure (c : MetricsCollector) (duration : Nat) : MetricsCollector :=
  let micros := duration / 1000 % 18446744073709551616
  let micros := Min.min micros c.histogram.high
  let histogram :=
    match c.histogram.record micros with
    | .ok h => h
    | .error _ => c.histogram
  { c with histogram := histogram, failed := c.failed + 1 }

/-- The `total_duration` computed inside `compute_metrics`: elapsed
nanoseconds between start and finish, `Duration::ZERO` when either
timestamp is absent. -/
def total_duration (c : MetricsCollector) : Nat :=
  match c.start_time, c.end_time with
  | some s, some e => e - s
  | _, _ => 0

/-- `MetricsCollector::compute_metrics` (`src/perf/metrics.rs`, lines
103–141), with `f64` arithmetic over `ℚ`: `as_secs_f64` is division by
`10^9`, `to_ms` on microsecond values is division by `10^3`. -/
def compute_metrics (c : MetricsCollector) : PerfMetrics :=
  let total := c.successful + c.failed
  let totalDurationNanos := c.total_duration
  let durationSecs : ℚ := (totalDurationNanos : ℚ) / 1000000000
  let total_duration_ms : ℚ := durationSecs * 1000
  let requests_per_second : ℚ :=
    if 0 < durationSecs then (total : ℚ) / durationSecs else 0
  let error_rate : ℚ :=
    if 0 < total then ((c.failed : ℚ) / (total : ℚ)) * 100 else 0
  let to_ms : Nat → ℚ := fun micros => (micros : ℚ) / 1000
  { total_requests := total
    successful_requests := c.successful
    failed_requests := c.failed
    total_duration_ms := total_duration_ms
    latency_min_ms := to_ms c.histogram.min
    latency_max_ms := to_ms c.histogram.max
    latency_avg_ms := to_ms c.histogram.mean
    latency_p50_ms := to_ms (c.histogram.value_at_percentile 50)
    latency_p95_ms := to_ms (c.histogram.value_at_percentile 95)
    latency_p99_ms := to_ms (c.histogram.value_at_percentile 99)
    requests_per_second := requests_per_second
    error_rate_percent := error_rate }

end MetricsCollector

/-! ## Dataset (`src/perf/dataset.rs`) -/

/-- Embedding of `DatasetEntry` (`src/perf/dataset.rs`). The JSON body value
is kept in its serialized form, so `get_body_string` is the identity on the
`body` field. -/
structure DatasetEntry where
  method : String
  path : Option String
  body : Option String
  headers : Option (List (String × String))
  deriving Repr, DecidableEq

instance : Inhabited DatasetEntry :=
  ⟨{ method := "GET", path := none, body := none, headers := none }⟩

/-- `DatasetEntry::get_body_string`. -/
def DatasetEntry.get_body_string (e : DatasetEntry) : Option String :=
  e.body

/-- Embedding of `Dataset` (`src/perf/dataset.rs`). -/
structure Dataset where
  entries : List DatasetEntry
  deriving Repr, DecidableEq

namespace Dataset

/-- `Dataset::len`. -/
def len (d : Dataset) : Nat :=
  d.entries.length

/-- `Dataset::is_empty`. -/
def is_empty (d : Dataset) : Bool :=
  d.entries.isEmpty

/-- `Dataset::simple(count)`: `count` identical no-override GET entries. -/
def simple (count : Nat) : Dataset :=
  { entries := (List.range count).map fun _ =>
      { method := "GET", path := none, body := none, headers := none } }

end Dataset

/-! ## HTTP request and response (`src/http/request.rs`, `src/http/response.rs`) -/

/-- `str::to_uppercase`, character by character (method strings are ASCII
tokens, for which per-character upper-casing coincides with Rust's). -/
def toUppercase (s : String) : String :=
  ⟨s.data.map Char.toUpper⟩

/-- `str::starts_with(pat)`. -/
def startsWithModel (s pat : String) : Bool :=
  pat.data.isPrefixOf s.data

/-- Modelled from the spec: the method-string validation performed by the
external `reqwest::Method` parser used in `HttpRequest::method`
(`src/http/request.rs`, lines 71–76): a method is accepted iff it is a
non-empty string of HTTP token characters (letters, digits, and the
punctuation below). -/
def isTokenChar (c : Char) : Bool :=
  c.isAlphanum || c == '!' || c == '#' || c == '$' || c == '%' || c == '&' ||
    c == '*' || c == '+' || c == '-' || c == '.' || c == '^' || c == '_' ||
    c == '|' || c == '~'

/-- Embedding of `HttpRequest` (`src/http/request.rs`). The parsed
`reqwest::Method` is kept as its canonical upper-case string; headers are an
insertion-ordered association list standing for the `HashMap`; the timeout
is in nanoseconds. -/
structure HttpRequest where
  method : String
  url : String
  headers : List (String × String)
  body : Option String
  timeout : Nat
  follow_redirects : Bool
  deriving Repr, DecidableEq

namespace HttpRequest

/-- `HttpRequest::new(url)`: GET, no headers, no body, 30 s timeout,
redirects followed. -/
def new (url : String) : HttpRequest :=
  { method := "GET"
    url := url
    headers := []
    body := none
    timeout := 30000000000
    follow_redirects := true }

/-- `HashMap::insert` on the header association list: replace the value of
an existing key, otherwise append. -/
def insertHeader (hs : List (String × String)) (key value : String) :
    List (String × String) :=
  if hs.any (fun p => p.1 == key) then
    hs.map fun p => if p.1 == key then (key, value) else p
  else
    hs ++ [(key, value)]

/-- Modelled from the spec: whether the external `reqwest::Method` parser
accepts the upper-cased method string — non-empty and all token characters. -/
def methodValid (m : String) : Bool :=
  let up := Hurley.toUppercase m
  !up.data.isEmpty && up.data.all Hurley.isTokenChar

/-- `HttpRequest::method(method)` (`src/http/request.rs`, lines 71–76):
upper-case the string, parse it as a `reqwest::Method`, and fail with
`InvalidMethod` when parsing rejects it. (Named `method_set` because the
`method` field projection takes the name `HttpRequest.method`.) -/
def method_set (r : HttpRequest) (m : String) : Except RurlError HttpRequest :=
  if methodValid m then
    .ok { r with method := Hurley.toUppercase m }
  else
    .error (RurlError.InvalidMethod m)

/-- `HttpRequest::header(key, value)`. -/
def header (r : HttpRequest) (key value : String) : HttpRequest :=
  { r with headers := insertHeader r.headers key value }

/-- `HttpRequest::body(body)`. -/
def body_set (r : HttpRequest) (b : String) : HttpRequest :=
  { r with body := some b }

/-- `HttpRequest::timeout(timeout)`. -/
def timeout_set (r : HttpRequest) (t : Nat) : HttpRequest :=
  { r with timeout := t }

/-- `HttpRequest::follow_redirects(follow)`. -/
def follow_redirects_set (r : HttpRequest) (f : Bool) : HttpRequest :=
  { r with follow_redirects := f }

end HttpRequest

/-- Embedding of `HttpResponse` (`src/http/response.rs`): status code,
body, and elapsed duration in nanoseconds. -/
structure HttpResponse where
  status : Nat
  body : String
  duration : Nat
  deriving Repr, DecidableEq

/-- `HttpResponse::is_success` (`src/http/response.rs`, lines 44–46):
`StatusCode::is_success`, i.e. the 2xx range. -/
def HttpResponse.is_success (r : HttpResponse) : Bool :=
  200 ≤ r.status && r.status < 300

/-! ## Runner (`src/perf/runner.rs`) -/

/-- `str::trim_end_matches(c)`: remove every trailing occurrence of `c`. -/
def trimEndMatches (s : String) (c : Char) : String :=
  ⟨(s.data.reverse.dropWhile (· == c)).reverse⟩

/-- `Iterator::cycle().take(n)` specialised to the planner: emit elements of
`orig` in order, restarting at the front when the current pass (`cur`) is
exhausted, until `n` elements are produced; an empty `orig` yields nothing. -/
def cycleTakeAux (orig : List α) : List α → Nat → List α
  | _, 0 => []
  | [], n + 1 =>
    match orig with
    | [] => []
    | y :: ys => y :: cycleTakeAux orig ys n
  | x :: rest, n + 1 => x :: cycleTakeAux orig rest n

/-- `xs.iter().cycle().take(n)`. -/
def cycleTake (xs : List α) (n : Nat) : List α :=
  cycleTakeAux xs xs n

/-- The planning step of `PerfRunner::run` (`src/perf/runner.rs`, lines
83–93): take the first `total_requests` entries when the dataset is large
enough, otherwise cycle through the entries. -/
def requests_to_make (dataset : Dataset) (total_requests : Nat) :
    List DatasetEntry :=
  if dataset.len ≥ total_requests then
    dataset.entries.take total_requests
  else
    cycleTake dataset.entries total_requests

/-- Embedding of `PerfRunner` (`src/perf/runner.rs`). -/
structure PerfRunner where
  base_url : String
  base_request : HttpRequest
  concurrency : Nat
  total_requests : Nat
  verbose : Bool
  deriving Repr, DecidableEq

namespace PerfRunner

/-- `PerfRunner::build_request` (`src/perf/runner.rs`, lines 158–194):
resolve the per-item URL, parse the entry's method (the only fallible step),
layer the base template's timeout/redirect policy and headers under the
entry's overrides, and choose the entry body over the base body. -/
def build_request (runner : PerfRunner) (entry : DatasetEntry) :
    Except RurlError HttpRequest :=
  let url :=
    match entry.path with
    | some path =>
      if startsWithModel path "http://" || startsWithModel path "https://" then
        path
      else trimEndMatches runner.base_url '/' ++ path
    | none => runner.base_url
  match (HttpRequest.new url).method_set entry.method with
  | .error e => .error e
  | .ok req =>
    let req := req.timeout_set runner.base_request.timeout
    let req := req.follow_redirects_set runner.base_request.follow_redirects
    let req := runner.base_request.headers.foldl
      (fun r p => r.header p.1 p.2) req
    let req :=
      match entry.headers with
      | some hs => hs.foldl (fun r p => r.header p.1 p.2) req
      | none => req
    let req :=
      match entry.get_body_string with
      | some b => req.body_set b
      | none =>
        match runner.base_request.body with
        | some b => req.body_set b
        | none => req
    .ok req

end PerfRunner

/-- The per-unit recording step of `PerfRunner::run` (`src/perf/runner.rs`,
lines 121–131): a `Success` is recorded iff the call returned `Ok` and the
response status is 2xx; every other outcome — non-2xx status or transport
error — is recorded as a `Failure`. -/
def recordOutcome (c : MetricsCollector)
    (result : Except RurlError HttpResponse) (duration : Nat) :
    MetricsCollector :=
  match result with
  | .ok response =>
    if response.is_success then c.record_success duration
    else c.record_failure duration
  | .error _ => c.record_failure duration

/-- The dispatch loop of `PerfRunner::run` (`src/perf/runner.rs`, lines
106–144), sequentialised: for each planned entry, `build_request` is called
(its error propagates out of `run` via `?`, aborting the loop); the
external HTTP executor `exec` supplies each built request's result and
elapsed duration; the unit's outcome is recorded into the collector. -/
def runLoop (exec : HttpRequest → Except RurlError HttpResponse × Nat)
    (runner : PerfRunner) :
    List DatasetEntry → MetricsCollector → Except RurlError MetricsCollector
  | [], c => .ok c
  | entry :: rest, c =>
    match runner.build_request entry with
    | .error e => .error e
    | .ok request =>
      let r := exec request
      runLoop exec runner rest (recordOutcome c r.1 r.2)

/-- `PerfRunner::run` (`src/perf/runner.rs`, lines 70–156), sequentialised:
plan the requests, start the collector, run the dispatch loop, finish the
collector, and compute the metrics. The external executor and the two
wall-clock instants are explicit parameters. -/
def PerfRunner.runModel (runner : PerfRunner) (dataset : Dataset)
    (exec : HttpRequest → Except RurlError HttpResponse × Nat)
    (startNow endNow : Nat) : Except RurlError PerfMetrics :=
  let plan := requests_to_make dataset runner.total_requests
  let c := MetricsCollector.new.start startNow
  match runLoop exec runner plan c with
  | .error e => .error e
  | .ok c => .ok ((c.finish endNow).compute_metrics)

/-! ## Bounded-concurrency dispatcher (`src/perf/runner.rs`, lines 102–139)

The semaphore discipline is modelled as a transition system: the dispatcher
launches a unit only after taking one of the `C` permits
(`semaphore.acquire_owned`), and a unit's termination — on any exit path,
since the owned permit is dropped even on abort — returns its permit. -/

/-- A state of the dispatcher: items not yet launched, free permits,
in-flight units (each holding one permit), and terminated units. -/
structure SemState where
  pending : Nat
  available : Nat
  running : Nat
  completed : Nat
  deriving Repr, DecidableEq

/-- One step of the dispatcher/unit system: `launch` consumes a pending item
and a free permit and starts a unit (`acquire_owned` then `tokio::spawn`);
`complete` terminates a running unit and returns its permit exactly once
(`drop(permit)` on every exit path). -/
inductive SemStep : SemState → SemState → Prop
  | launch (s : SemState) (hp : 0 < s.pending) (ha : 0 < s.available) :
    SemStep s
      { pending := s.pending - 1
        available := s.available - 1
        running := s.running + 1
        completed := s.completed }
  | complete (s : SemState) (hr : 0 < s.running) :
    SemStep s
      { pending := s.pending
        available := s.available + 1
        running := s.running - 1
        completed := s.completed + 1 }

/-- The initial state of a run of `N` planned items at concurrency `C`:
`Semaphore::new(C)` holds all `C` permits, nothing launched yet. -/
def SemState.init (C N : Nat) : SemState :=
  { pending := N, available := C, running := 0, completed := 0 }

/-- The states the dispatcher can reach during a run of `N` items at
concurrency `C`. -/
def SemReachable (C N : Nat) (s : SemState) : Prop :=
  Relation.ReflTransGen SemStep (SemState.init C N) s

/-! ## Lemmas about the workload planner -/

theorem cycleTakeAux_restart (orig : List α) (n : Nat) :
    cycleTakeAux orig [] n = cycleTakeAux orig orig n := by
  cases n with
  | zero => cases orig <;> rfl
  | succ m => cases orig <;> simp [cycleTakeAux]

theorem cycleTakeAux_length (orig : List α) (h : orig ≠ []) :
    ∀ (n : Nat) (cur : List α), (cycleTakeAux orig cur n).length = n := by
  intro n
  induction n with
  | zero => intro cur; cases cur <;> rfl
  | succ m ih =>
    intro cur
    cases cur with
    | cons x rest => simpa [cycleTakeAux] using ih rest
    | nil =>
      cases horig : orig with
      | nil => exact absurd horig h
      | cons y ys =>
        simp only [cycleTakeAux, horig]
        simpa using horig ▸ ih ys

theorem cycleTake_length (xs : List α) (h : xs ≠ []) (n : Nat) :
    (cycleTake xs n).length = n :=
  cycleTakeAux_length xs h n xs

theorem cycleTake_nil (n : Nat) : cycleTake ([] : List α) n = [] := by
  cases n <;> rfl

theorem cycleTakeAux_getD [Inhabited α] (orig : List α) :
    ∀ (n k i : Nat), k < orig.length → i < n →
      (cycleTakeAux orig (orig.drop k) n).getD i default =
        orig.getD ((k + i) % orig.length) default := by
  intro n
  induction n with
  | zero => intro k i _ hi; omega
  | succ m ih =>
    intro k i hk hi
    rw [List.drop_eq_getElem_cons hk]
    cases i with
    | zero =>
      simp only [cycleTakeAux, List.getD_cons_zero]
      rw [Nat.add_zero, Nat.mod_eq_of_lt hk, List.getD_eq_getElem _ _ hk]
    | succ j =>
      simp only [cycleTakeAux, List.getD_cons_succ]
      by_cases hk1 : k + 1 < orig.length
      · rw [show k + (j + 1) = k + 1 + j by omega]
        exact ih (k + 1) j hk1 (by omega)
      · have hlen : k + 1 = orig.length := by omega
        rw [hlen, List.drop_length, cycleTakeAux_restart]
        have h0 : 0 < orig.length := by omega
        have hih := ih 0 j h0 (by omega)
        rw [List.drop_zero, Nat.zero_add] at hih
        rw [show k + (j + 1) = orig.length + j by omega, Nat.add_mod_left]
        exact hih

theorem cycleTake_getD [Inhabited α] (xs : List α) (n i : Nat)
    (hxs : xs ≠ []) (hi : i < n) :
    (cycleTake xs n).getD i default = xs.getD (i % xs.length) default := by
  have h0 : 0 < xs.length := List.length_pos.mpr hxs
  have := cycleTakeAux_getD xs n 0 i h0 hi
  rw [List.drop_zero, Nat.zero_add] at this
  exact this

theorem requests_to_make_empty (total : Nat) :
    requests_to_make ⟨[]⟩ total = [] := by
  unfold requests_to_make
  split
  · simp
  · exact cycleTake_nil total

/-! ## Lemmas about the dispatch loop -/

theorem build_request_error_of_invalid (runner : PerfRunner)
    (entry : DatasetEntry) (h : HttpRequest.methodValid entry.method = false) :
    runner.build_request entry = .error (RurlError.InvalidMethod entry.method) := by
  unfold PerfRunner.build_request HttpRequest.method_set
  simp [h]

theorem build_request_ok_of_valid (runner : PerfRunner)
    (entry : DatasetEntry) (h : HttpRequest.methodValid entry.method = true) :
    ∃ req, runner.build_request entry = .ok req := by
  unfold PerfRunner.build_request HttpRequest.method_set
  simp [h]

theorem record_success_counters (c : MetricsCollector) (d : Nat) :
    (c.record_success d).successful = c.successful + 1 ∧
      (c.record_success d).failed = c.failed := by
  simp [MetricsCollector.record_success]

theorem record_failure_counters (c : MetricsCollector) (d : Nat) :
    (c.record_failure d).failed = c.failed + 1 ∧
      (c.record_failure d).successful = c.successful := by
  simp [MetricsCollector.record_failure]

theorem recordOutcome_sum (c : MetricsCollector)
    (result : Except RurlError HttpResponse) (d : Nat) :
    (recordOutcome c result d).successful + (recordOutcome c result d).failed =
      c.successful + c.failed + 1 := by
  cases result with
  | ok r =>
    by_cases h : r.is_success <;>
      simp [recordOutcome, h, MetricsCollector.record_success,
        MetricsCollector.record_failure] <;> omega
  | error e =>
    simp [recordOutcome, MetricsCollector.record_failure]
    omega

theorem runLoop_sum (exec : HttpRequest → Except RurlError HttpResponse × Nat)
    (runner : PerfRunner) :
    ∀ (entries : List DatasetEntry) (c c' : MetricsCollector),
      runLoop exec runner entries c = .ok c' →
      c'.successful + c'.failed = c.successful + c.failed + entries.length := by
  intro entries
  induction entries with
  | nil =>
    intro c c' h
    simp only [runLoop, Except.ok.injEq] at h
    subst h
    simp
  | cons e rest ih =>
    intro c c' h
    simp only [runLoop] at h
    cases hb : runner.build_request e with
    | error err => rw [hb] at h; exact absurd h (by simp)
    | ok req =>
      rw [hb] at h
      rw [ih (recordOutcome c (exec req).1 (exec req).2) c' h, recordOutcome_sum]
      simp only [List.length_cons]
      omega

theorem runLoop_invalid_method
    (exec : HttpRequest → Except RurlError HttpResponse × Nat)
    (runner : PerfRunner) :
    ∀ (entries : List DatasetEntry) (c : MetricsCollector),
      (∃ e ∈ entries, HttpRequest.methodValid e.method = false) →
      ∃ m, runLoop exec runner entries c = .error (RurlError.InvalidMethod m) := by
  intro entries
  induction entries with
  | nil => intro c h; simp at h
  | cons e rest ih =>
    intro c h
    by_cases he : HttpRequest.methodValid e.method
    · rcases h with ⟨x, hx, hxv⟩
      rcases List.mem_cons.mp hx with rfl | hxr
      · rw [he] at hxv; cases hxv
      · obtain ⟨req, hreq⟩ := build_request_ok_of_valid runner e he
        obtain ⟨m, hm⟩ :=
          ih (recordOutcome c (exec req).1 (exec req).2) ⟨x, hxr, hxv⟩
        refine ⟨m, ?_⟩
        simp only [runLoop, hreq]
        exact hm
    · refine ⟨e.method, ?_⟩
      have hberr := build_request_error_of_invalid runner e (by simpa using he)
      simp only [runLoop, hberr]

/-! ## Lemmas about the histogram statistics -/

theorem sorted_getD_mono (s : List Nat) (hs : s.Sorted (· ≤ ·)) {i j : Nat}
    (hij : i ≤ j) (hj : j < s.length) : s.getD i 0 ≤ s.getD j 0 := by
  rw [List.getD_eq_getElem _ _ (lt_of_le_of_lt hij hj),
    List.getD_eq_getElem _ _ hj]
  exact hs.rel_get_of_le hij

theorem headD_eq_getD_zero (l : List Nat) (h : l ≠ []) :
    l.headD 0 = l.getD 0 0 := by
  cases l <;> simp_all

theorem getLastD_eq_getD (l : List Nat) (h : l ≠ []) :
    l.getLastD 0 = l.getD (l.length - 1) 0 := by
  rw [List.getLastD_eq_getLast?, List.getLast?_eq_getLast _ h, Option.getD_some,
    List.getD_eq_getElem _ _ (by cases l with | nil => simp at h | cons a t => simp),
    List.getLast_eq_getElem]

theorem sortedValues_sorted (h : Histogram) :
    h.sortedValues.Sorted (· ≤ ·) :=
  List.sorted_insertionSort _ _

theorem sortedValues_length (h : Histogram) :
    h.sortedValues.length = h.values.length :=
  List.length_insertionSort _ _

theorem percentile_rank_le (p n : Nat) (hp : p ≤ 100) (hn : 0 < n) :
    Max.max 1 ((p * n + 99) / 100) ≤ n := by
  apply max_le hn
  have h1 : (p * n + 99) / 100 < n + 1 :=
    (Nat.div_lt_iff_lt_mul (by norm_num)).mpr (by nlinarith)
  omega

theorem percentile_rank_mono (p q n : Nat) (hpq : p ≤ q) :
    Max.max 1 ((p * n + 99) / 100) ≤ Max.max 1 ((q * n + 99) / 100) :=
  max_le_max le_rfl
    (Nat.div_le_div_right (by nlinarith))

theorem histogram_order (h : Histogram) :
    h.min ≤ h.value_at_percentile 50 ∧
    h.value_at_percentile 50 ≤ h.value_at_percentile 95 ∧
    h.value_at_percentile 95 ≤ h.value_at_percentile 99 ∧
    h.value_at_percentile 99 ≤ h.max := by
  by_cases he : h.values.isEmpty
  · have hv : h.values = [] := by simpa [List.isEmpty_iff] using he
    have hs : h.sortedValues = [] := by simp [Histogram.sortedValues, hv]
    simp [Histogram.min, Histogram.max, Histogram.value_at_percentile, he, hs]
  · have hvne : h.values ≠ [] := by simpa [List.isEmpty_iff] using he
    have hsne : h.sortedValues ≠ [] := by
      intro hnil
      apply hvne
      have hl := sortedValues_length h
      rw [hnil] at hl
      exact List.length_eq_zero.mp hl.symm
    have hsorted := sortedValues_sorted h
    have hn : 0 < h.sortedValues.length := List.length_pos.mpr hsne
    have hvap : ∀ p, h.value_at_percentile p =
        h.sortedValues.getD
          (Max.max 1 ((p * h.sortedValues.length + 99) / 100) - 1) 0 := by
      intro p
      simp [Histogram.value_at_percentile, he]
    have hrle : ∀ p, p ≤ 100 →
        Max.max 1 ((p * h.sortedValues.length + 99) / 100) ≤
          h.sortedValues.length :=
      fun p hp => percentile_rank_le p _ hp hn
    have hr1 : ∀ p, 1 ≤ Max.max 1 ((p * h.sortedValues.length + 99) / 100) :=
      fun p => le_max_left _ _
    refine ⟨?_, ?_, ?_, ?_⟩
    · rw [Histogram.min, headD_eq_getD_zero _ hsne, hvap 50]
      exact sorted_getD_mono _ hsorted (Nat.zero_le _)
        (by have := hrle 50 (by norm_num); have := hr1 50; omega)
    · rw [hvap 50, hvap 95]
      exact sorted_getD_mono _ hsorted
        (Nat.sub_le_sub_right (percentile_rank_mono 50 95 _ (by norm_num)) 1)
        (by have := hrle 95 (by norm_num); have := hr1 95; omega)
    · rw [hvap 95, hvap 99]
      exact sorted_getD_mono _ hsorted
        (Nat.sub_le_sub_right (percentile_rank_mono 95 99 _ (by norm_num)) 1)
        (by have := hrle 99 (by norm_num); have := hr1 99; omega)
    · rw [Histogram.max, getLastD_eq_getD _ hsne, hvap 99]
      exact sorted_getD_mono _ hsorted
        (by have := hrle 99 (by norm_num); omega)
        (by omega)

/-! ## Concrete fixtures used by witnesses and counterexamples -/

/-- Fixture: a GET entry targeting `/a`. -/
def entryA : DatasetEntry :=
  { method := "GET", path := some "/a", body := none, headers := none }

/-- Fixture: a POST entry targeting `/b`. -/
def entryB : DatasetEntry :=
  { method := "POST", path := some "/b", body := none, headers := none }

/-- Fixture: an entry whose method string is rejected by the method parser
(it contains a space). -/
def entryBad : DatasetEntry :=
  { method := "BAD METHOD", path := none, body := none, headers := none }

/-- Fixture: a runner asking for 3 requests at concurrency 2. -/
def runner0 : PerfRunner :=
  { base_url := "http://example.test"
    base_request := HttpRequest.new "http://example.test"
    concurrency := 2
    total_requests := 3
    verbose := false }

/-- Fixture: an executor that always answers 200 after 10 ms. -/
def exec200 : HttpRequest → Except RurlError HttpResponse × Nat :=
  fun _ => (.ok { status := 200, body := "", duration := 10000000 }, 10000000)

/-! ## Claim theorems -/

/-- C1: for every dataset with length `L > 0` and every requested total `N`,
the planned sequence has length exactly `N`; if `L ≥ N` it is the first `N`
entries in order; if `L < N` the item at index `i` is `entries[i mod L]`. -/
theorem C1_plan_shape (dataset : Dataset) (N : Nat) (hL : 0 < dataset.len) :
    (requests_to_make dataset N).length = N ∧
    (N ≤ dataset.len → requests_to_make dataset N = dataset.entries.take N) ∧
    (dataset.len < N → ∀ i, i < N →
      (requests_to_make dataset N).getD i default =
        dataset.entries.getD (i % dataset.len) default) := by
  have hne : dataset.entries ≠ [] := by
    intro h
    simp [Dataset.len, h] at hL
  refine ⟨?_, ?_, ?_⟩
  · unfold requests_to_make
    split
    · rename_i hge
      unfold Dataset.len at hge
      simp only [List.length_take]
      omega
    · exact cycleTake_length _ hne N
  · intro hNle
    unfold requests_to_make
    rw [if_pos hNle]
  · intro hlt i hi
    unfold requests_to_make
    rw [if_neg (by omega)]
    exact cycleTake_getD dataset.entries N i hne hi

/-- Witness for C1 at a 2-entry dataset cycled to `N = 5`. -/
theorem C1_plan_shape_witness :
    0 < (Dataset.mk [entryA, entryB]).len ∧
      ((requests_to_make ⟨[entryA, entryB]⟩ 5).length = 5 ∧
        (5 ≤ (Dataset.mk [entryA, entryB]).len →
          requests_to_make ⟨[entryA, entryB]⟩ 5 =
            (Dataset.mk [entryA, entryB]).entries.take 5) ∧
        ((Dataset.mk [entryA, entryB]).len < 5 → ∀ i, i < 5 →
          (requests_to_make ⟨[entryA, entryB]⟩ 5).getD i default =
            (Dataset.mk [entryA, entryB]).entries.getD
              (i % (Dataset.mk [entryA, entryB]).len) default)) :=
  ⟨by decide, C1_plan_shape ⟨[entryA, entryB]⟩ 5 (by decide)⟩

/-- C5: a unit's outcome is recorded as Success iff the call returned `Ok`
and the status is 2xx; transport errors and non-2xx statuses are recorded
as Failure. -/
theorem C5_success_classification (c : MetricsCollector)
    (result : Except RurlError HttpResponse) (d : Nat) :
    (∀ r : HttpResponse, r.is_success = true ↔ 200 ≤ r.status ∧ r.status < 300) ∧
    (((recordOutcome c result d).successful = c.successful + 1 ∧
        (recordOutcome c result d).failed = c.failed) ↔
      ∃ r, result = Except.ok r ∧ r.is_success = true) ∧
    (((recordOutcome c result d).failed = c.failed + 1 ∧
        (recordOutcome c result d).successful = c.successful) ↔
      ¬∃ r, result = Except.ok r ∧ r.is_success = true) := by
  refine ⟨fun r => by simp [HttpResponse.is_success], ?_, ?_⟩ <;>
    cases result with
    | ok r =>
      by_cases h : r.is_success <;>
        simp [recordOutcome, h, MetricsCollector.record_success,
          MetricsCollector.record_failure]
    | error e =>
      simp [recordOutcome, MetricsCollector.record_failure]

/-- C7: `record_success`/`record_failure` always convert the duration to
integer microseconds exactly as the code does (including the wrapping
`as u64` cast), clamp the result to the histogram maximum, record it
(never dropping a value, never erroring), increment exactly their own
counter, and a subsequent `compute_metrics` is still well-defined and
reflects the recording. -/
theorem C7_record_clamps (c : MetricsCollector) (d : Nat) :
    (c.record_success d).histogram.values =
        Min.min (d / 1000 % 18446744073709551616) c.histogram.high :: c.histogram.values ∧
    (c.record_success d).successful = c.successful + 1 ∧
    (c.record_success d).failed = c.failed ∧
    (c.record_failure d).histogram.values =
        Min.min (d / 1000 % 18446744073709551616) c.histogram.high :: c.histogram.values ∧
    (c.record_failure d).failed = c.failed + 1 ∧
    (c.record_failure d).successful = c.successful ∧
    (c.record_success d).compute_metrics.total_requests =
        c.successful + c.failed + 1 ∧
    (c.record_failure d).compute_metrics.total_requests =
        c.successful + c.failed + 1 := by
  have hok : c.histogram.record (Min.min (d / 1000 % 18446744073709551616) c.histogram.high) =
      .ok { c.histogram with
        values :=
          Min.min (d / 1000 % 18446744073709551616) c.histogram.high :: c.histogram.values } := by
    simp [Histogram.record, min_le_right]
  refine ⟨?_, ?_, ?_, ?_, ?_, ?_, ?_, ?_⟩ <;>
    simp [MetricsCollector.record_success, MetricsCollector.record_failure,
      MetricsCollector.compute_metrics, hok] <;> omega

/-- C2 counterexample: running with an empty dataset and requested total
`3 > 0` does **not** fail with a planning error: cycling an empty iterator
yields an empty plan, the run returns `Ok`, and zero requests are made. -/
theorem C2_counterexample :
    runner0.runModel ⟨[]⟩ exec200 0 1000000000 =
      Except.ok (((MetricsCollector.new.start 0).finish 1000000000).compute_metrics) ∧
    (((MetricsCollector.new.start 0).finish 1000000000).compute_metrics).total_requests = 0 :=
  ⟨rfl, rfl⟩

/-- C2 (amended): running `PerfRunner::run` with an empty dataset does not
fail — the cycle branch yields an empty plan, the run completes normally
having performed zero requests, and the reported metrics count zero
requests. (An empty dataset is rejected only at parse time by
`Dataset::from_json`, not by the runner's planning.) -/
theorem C2_empty_dataset_runs_ok (runner : PerfRunner)
    (exec : HttpRequest → Except RurlError HttpResponse × Nat)
    (startNow endNow : Nat) :
    ∃ m, runner.runModel ⟨[]⟩ exec startNow endNow = Except.ok m ∧
      m.total_requests = 0 ∧ m.successful_requests = 0 ∧
      m.failed_requests = 0 := by
  refine ⟨((MetricsCollector.new.start startNow).finish endNow).compute_metrics,
    ?_, rfl, rfl, rfl⟩
  simp only [PerfRunner.runModel, requests_to_make_empty, runLoop]

/-- C3 counterexample: a planned item with an invalid method string is not
recovered as a per-unit Failure — the whole run aborts with an
`InvalidMethod` error (the later valid items never execute). -/
theorem C3_counterexample :
    runner0.runModel ⟨[entryBad, entryA]⟩ exec200 0 1000000000 =
      Except.error (RurlError.InvalidMethod "BAD METHOD") := rfl

/-- C3 (amended): an invalid per-item method string is fatal to the run:
`build_request`'s error propagates out of `PerfRunner::run` via `?`, the run
aborts with an `InvalidMethod` error instead of recording a Failure for
that unit, and the remaining planned units do not execute. -/
theorem C3_invalid_method_fatal (runner : PerfRunner) (dataset : Dataset)
    (exec : HttpRequest → Except RurlError HttpResponse × Nat)
    (startNow endNow : Nat)
    (h : ∃ e ∈ requests_to_make dataset runner.total_requests,
      HttpRequest.methodValid e.method = false) :
    ∃ m, runner.runModel dataset exec startNow endNow =
      Except.error (RurlError.InvalidMethod m) := by
  obtain ⟨m, hm⟩ := runLoop_invalid_method exec runner
    (requests_to_make dataset runner.total_requests)
    (MetricsCollector.new.start startNow) h
  refine ⟨m, ?_⟩
  simp only [PerfRunner.runModel, hm]

/-- Witness for C3 (amended) at a dataset whose first planned entry has an
invalid method. -/
theorem C3_invalid_method_fatal_witness :
    (∃ e ∈ requests_to_make ⟨[entryBad, entryA]⟩ runner0.total_requests,
      HttpRequest.methodValid e.method = false) ∧
    ∃ m, runner0.runModel ⟨[entryBad, entryA]⟩ exec200 0 5 =
      Except.error (RurlError.InvalidMethod m) :=
  ⟨by decide,
    C3_invalid_method_fatal runner0 ⟨[entryBad, entryA]⟩ exec200 0 5 (by decide)⟩

/-- C4: when a run completes (`runModel` returns `Ok`), the collector's
success count plus failure count equals exactly the number of planned
items, and after any prefix of the dispatch loop the sum never exceeds that
number. -/
theorem C4_outcome_conservation (runner : PerfRunner) (dataset : Dataset)
    (exec : HttpRequest → Except RurlError HttpResponse × Nat)
    (startNow endNow : Nat) (m : PerfMetrics)
    (h : runner.runModel dataset exec startNow endNow = Except.ok m) :
    m.successful_requests + m.failed_requests =
        (requests_to_make dataset runner.total_requests).length ∧
    m.total_requests =
        (requests_to_make dataset runner.total_requests).length ∧
    ∀ k c', runLoop exec runner
        ((requests_to_make dataset runner.total_requests).take k)
        (MetricsCollector.new.start startNow) = .ok c' →
      c'.successful + c'.failed ≤
        (requests_to_make dataset runner.total_requests).length := by
  have h0 : (MetricsCollector.new.start startNow).successful = 0 := rfl
  have h1 : (MetricsCollector.new.start startNow).failed = 0 := rfl
  have hpre : ∀ k c', runLoop exec runner
      ((requests_to_make dataset runner.total_requests).take k)
      (MetricsCollector.new.start startNow) = .ok c' →
      c'.successful + c'.failed ≤
        (requests_to_make dataset runner.total_requests).length := by
    intro k c' hk
    have hs := runLoop_sum exec runner _ _ _ hk
    rw [List.length_take] at hs
    omega
  simp only [PerfRunner.runModel] at h
  cases hl : runLoop exec runner (requests_to_make dataset runner.total_requests)
      (MetricsCollector.new.start startNow) with
  | error e => rw [hl] at h; simp at h
  | ok c =>
    rw [hl] at h
    simp only [Except.ok.injEq] at h
    subst h
    have hsum := runLoop_sum exec runner _ _ _ hl
    refine ⟨?_, ?_, hpre⟩ <;>
      simp only [MetricsCollector.compute_metrics, MetricsCollector.finish] <;>
      omega

/-- The collector produced by the witness run for C4: three successful
10 ms requests. -/
def collectorA : MetricsCollector :=
  (((MetricsCollector.new.start 0).record_success 10000000).record_success
    10000000).record_success 10000000

/-- The metrics of the witness run for C4. -/
def mA : PerfMetrics :=
  (collectorA.finish 2000000000).compute_metrics

/-- Witness for C4 at a single-entry dataset cycled to 3 requests, all
succeeding. -/
theorem C4_outcome_conservation_witness :
    mA.successful_requests + mA.failed_requests =
        (requests_to_make ⟨[entryA]⟩ runner0.total_requests).length ∧
    mA.total_requests =
        (requests_to_make ⟨[entryA]⟩ runner0.total_requests).length ∧
    ∀ k c', runLoop exec200 runner0
        ((requests_to_make ⟨[entryA]⟩ runner0.total_requests).take k)
        (MetricsCollector.new.start 0) = .ok c' →
      c'.successful + c'.failed ≤
        (requests_to_make ⟨[entryA]⟩ runner0.total_requests).length :=
  C4_outcome_conservation runner0 ⟨[entryA]⟩ exec200 0 2000000000 mA rfl

/-- C9: in every state reachable by the permit-pool dispatcher, the units in
flight plus the free permits equal `C`, so the in-flight count never
exceeds the configured concurrency. -/
theorem C9_concurrency_bound (C N : Nat) (s : SemState)
    (h : SemReachable C N s) :
    s.running + s.available = C ∧ s.running ≤ C := by
  have key : s.running + s.available = C := by
    induction h with
    | refl => simp [SemState.init]
    | tail hr hstep ih => cases hstep <;> simp_all <;> omega
  exact ⟨key, by omega⟩

/-- Witness for C9: the state after launching one unit from
`init C := 2, N := 3`. -/
theorem C9_concurrency_bound_witness :
    (SemState.mk 2 1 1 0).running + (SemState.mk 2 1 1 0).available = 2 ∧
      (SemState.mk 2 1 1 0).running ≤ 2 :=
  C9_concurrency_bound 2 3 _
    (Relation.ReflTransGen.single
      (SemStep.launch (SemState.init 2 3) (by decide) (by decide)))

/-- The `total_duration` of the snapshot is zero when either timestamp is
absent. -/
theorem total_duration_none (c : MetricsCollector)
    (h : c.start_time = none ∨ c.end_time = none) : c.total_duration = 0 := by
  unfold MetricsCollector.total_duration
  rcases h with h | h
  · rw [h]
  · rw [h]
    cases c.start_time <;> rfl

/-- C6: the snapshot formulas — `error_rate_percent = 100·failures/total`
when `total > 0` and `0` otherwise (hence in `[0, 100]`, `0` without
failures, `100` without successes when `total > 0`);
`requests_per_second = total/duration_seconds` when positive duration and
`0` otherwise; zero run duration when a timestamp is absent. -/
theorem C6_snapshot_formulas (c : MetricsCollector) :
    (0 < c.successful + c.failed →
      c.compute_metrics.error_rate_percent =
        100 * (c.failed : ℚ) / ((c.successful + c.failed : Nat) : ℚ)) ∧
    (c.successful + c.failed = 0 →
      c.compute_metrics.error_rate_percent = 0) ∧
    0 ≤ c.compute_metrics.error_rate_percent ∧
    c.compute_metrics.error_rate_percent ≤ 100 ∧
    (c.failed = 0 → c.compute_metrics.error_rate_percent = 0) ∧
    (c.successful = 0 → 0 < c.failed →
      c.compute_metrics.error_rate_percent = 100) ∧
    (0 < c.total_duration →
      c.compute_metrics.requests_per_second =
        ((c.successful + c.failed : Nat) : ℚ) /
          ((c.total_duration : ℚ) / 1000000000)) ∧
    (c.total_duration = 0 → c.compute_metrics.requests_per_second = 0) ∧
    (c.start_time = none ∨ c.end_time = none →
      c.compute_metrics.total_duration_ms = 0) := by
  simp only [MetricsCollector.compute_metrics]
  refine ⟨?_, ?_, ?_, ?_, ?_, ?_, ?_, ?_, ?_⟩
  · intro h
    rw [if_pos h]
    ring
  · intro h
    rw [if_neg (by omega)]
  · split
    · positivity
    · exact le_refl 0
  · split
    · rename_i h
      have ht : (0 : ℚ) < ((c.successful + c.failed : Nat) : ℚ) := by
        exact_mod_cast h
      have hf : (c.failed : ℚ) ≤ ((c.successful + c.failed : Nat) : ℚ) := by
        exact_mod_cast Nat.le_add_left c.failed c.successful
      rw [div_mul_eq_mul_div, div_le_iff₀ ht]
      nlinarith
    · norm_num
  · intro h
    split
    · rw [h]
      norm_num
    · rfl
  · intro hs hf
    rw [if_pos (by omega), hs]
    simp only [Nat.zero_add]
    have hne : (c.failed : ℚ) ≠ 0 := by
      exact_mod_cast Nat.pos_iff_ne_zero.mp hf
    rw [div_self hne]
    norm_num
  · intro h
    rw [if_pos (div_pos (by exact_mod_cast h) (by norm_num))]
  · intro h
    rw [h]
    norm_num
  · intro h
    rw [total_duration_none c h]
    norm_num

/-- The concrete collector used by the C6 witness: one success, one
failure, a one-second run. -/
def collector1 : MetricsCollector :=
  (((MetricsCollector.new.start 0).record_success 5000000).record_failure
    7000000).finish 1000000000

/-- Witness for C6 at a collector with one success, one failure, and a
positive duration. -/
theorem C6_snapshot_formulas_witness :
    (0 < collector1.successful + collector1.failed ∧
      collector1.compute_metrics.error_rate_percent =
        100 * (collector1.failed : ℚ) /
          ((collector1.successful + collector1.failed : Nat) : ℚ)) ∧
    (0 < collector1.total_duration ∧
      collector1.compute_metrics.requests_per_second =
        ((collector1.successful + collector1.failed : Nat) : ℚ) /
          ((collector1.total_duration : ℚ) / 1000000000)) :=
  ⟨⟨by decide, (C6_snapshot_formulas collector1).1 (by decide)⟩,
    ⟨by decide, (C6_snapshot_formulas collector1).2.2.2.2.2.2.1 (by decide)⟩⟩

/-- C8: the latency statistics of every computed snapshot are ordered:
`min ≤ p50 ≤ p95 ≤ p99 ≤ max`. -/
theorem C8_latency_order (c : MetricsCollector) :
    c.compute_metrics.latency_min_ms ≤ c.compute_metrics.latency_p50_ms ∧
    c.compute_metrics.latency_p50_ms ≤ c.compute_metrics.latency_p95_ms ∧
    c.compute_metrics.latency_p95_ms ≤ c.compute_metrics.latency_p99_ms ∧
    c.compute_metrics.latency_p99_ms ≤ c.compute_metrics.latency_max_ms := by
  obtain ⟨h1, h2, h3, h4⟩ := histogram_order c.histogram
  simp only [MetricsCollector.compute_metrics]
  refine ⟨?_, ?_, ?_, ?_⟩ <;> gcongr

/-- C10: a fresh collector with no samples and no timestamps yields a
well-defined all-zero snapshot. -/
theorem C10_fresh_snapshot :
    MetricsCollector.new.compute_metrics =
      { total_requests := 0, successful_requests := 0, failed_requests := 0,
        total_duration_ms := 0, latency_min_ms := 0, latency_max_ms := 0,
        latency_avg_ms := 0, latency_p50_ms := 0, latency_p95_ms := 0,
        latency_p99_ms := 0, requests_per_second := 0,
        error_rate_percent := 0 } := by
  simp [MetricsCollector.compute_metrics, MetricsCollector.new,
    MetricsCollector.total_duration, Histogram.new_with_bounds, Histogram.min,
    Histogram.max, Histogram.mean, Histogram.value_at_percentile,
    Histogram.sortedValues]

end Hurley
